import Mathlib

/-!
Verification development for the dxf-wizard repository.

Python strings are modelled as their UTF-8 byte sequences (`List Nat`, each
element a byte value). All numeric geometry uses `ℚ` for coordinates, with
the transcendental operations (trigonometry, square root, float formatting)
and the pyproj coordinate transformation taken as abstract function
parameters: the claims under verification are structural and do not depend
on the values those operations return.
-/

/-- Python `str`, modelled as its UTF-8 byte sequence. -/
abbrev PyStr := List Nat

/-- Bytes of an ASCII string literal. -/
def pyOfString (s : String) : PyStr := s.data.map Char.toNat

/-- Python `str(i)` for an `int` (ASCII digits, with a leading minus sign). -/
def pyStrOfInt (i : Int) : PyStr := pyOfString (toString i)

/-- Python `str.lower()` restricted to ASCII bytes. -/
def pyLower (s : PyStr) : PyStr := s.map (fun c => if 65 ≤ c ∧ c ≤ 90 then c + 32 else c)

/-- Model of `layer.replace(' ', '_').lower()` from `utils.generate_uri`. -/
def cleanLayer (layer : PyStr) : PyStr :=
  pyLower (layer.map (fun c => if c = 32 then 95 else c))

/-- URL-safe base64 alphabet: sextet value to byte (`-` and `_` instead of `+`, `/`). -/
def encB64 (n : Nat) : Nat :=
  if n < 26 then 65 + n
  else if n < 52 then 71 + n
  else if n < 62 then n - 4
  else if n = 62 then 45
  else 95

/-- Inverse of the URL-safe base64 alphabet on its image. -/
def decB64 (c : Nat) : Nat :=
  if c = 45 then 62
  else if c = 95 then 63
  else if c < 58 then c + 4
  else if c < 91 then c - 65
  else c - 71

/-- Model of `base64.urlsafe_b64encode` on a byte sequence (with `=` padding, byte 61). -/
def b64encode : List Nat → List Nat
  | [] => []
  | [a] => [encB64 (a / 4), encB64 (a % 4 * 16), 61, 61]
  | [a, b] => [encB64 (a / 4), encB64 (a % 4 * 16 + b / 16), encB64 (b % 16 * 4), 61]
  | a :: b :: c :: rest =>
      encB64 (a / 4) :: encB64 (a % 4 * 16 + b / 16) ::
      encB64 (b % 16 * 4 + c / 64) :: encB64 (c % 64) :: b64encode rest

/-- Reassemble bytes from a padding-free sextet stream. -/
def b64decodeCore : List Nat → List Nat
  | [w, x] => [decB64 w * 4 + decB64 x / 16]
  | [w, x, y] => [decB64 w * 4 + decB64 x / 16, decB64 x % 16 * 16 + decB64 y / 4]
  | w :: x :: y :: z :: rest =>
      (decB64 w * 4 + decB64 x / 16) :: (decB64 x % 16 * 16 + decB64 y / 4) ::
      (decB64 y % 4 * 64 + decB64 z) :: b64decodeCore rest
  | _ => []

/-- Model of `base64.urlsafe_b64decode` on the image of `b64encode`: padding bytes are
dropped, then sextets are reassembled into bytes. -/
def b64decode (s : List Nat) : List Nat := b64decodeCore (s.filter (fun c => c != 61))

/-- Python `"||".join(parts)` (the delimiter is byte 124 twice). -/
def joinBars : List PyStr → PyStr
  | [] => []
  | [p] => p
  | p :: ps => p ++ 124 :: 124 :: joinBars ps

/-- Python `s.split("||")`: repeatedly split at the leftmost occurrence of `"||"`. -/
def pySplitBars : List Nat → List (List Nat)
  | [] => [[]]
  | [c] => [[c]]
  | c :: d :: rest =>
      if c = 124 ∧ d = 124 then [] :: pySplitBars rest
      else
        match pySplitBars (d :: rest) with
        | h :: t => (c :: h) :: t
        | [] => [[c]]

/-- Whether a byte string contains the substring `"||"`. -/
def containsBars : List Nat → Bool
  | [] => false
  | [_] => false
  | c :: d :: rest => (c == 124 && d == 124) || containsBars (d :: rest)

/-- Whether a byte string ends with the byte `'|'`. -/
def endsBar : List Nat → Bool
  | [] => false
  | [c] => c == 124
  | _ :: d :: rest => endsBar (d :: rest)

/-- Joinability condition for `"||".join`: no part contains `"||"`, and no part
except the last ends with a single `'|'` (which would merge with the following
delimiter). -/
def goodParts : List PyStr → Bool
  | [] => true
  | [p] => !containsBars p
  | p :: ps => !containsBars p && !endsBar p && goodParts ps

/-- Python `uri.split('/')[-1]`: the suffix after the last `'/'` (byte 47). -/
def lastSeg (l : PyStr) : PyStr := (l.reverse.takeWhile (fun c => c != 47)).reverse

/-- A planar coordinate pair (Python floats, modelled as rationals). -/
abbrev PlanePt := ℚ × ℚ

/-- The geometry carried by a shapely `.wkt` string: the WKT text is in
bijection with this structure for the geometries the converter builds. -/
inductive Geom where
  | point (p : PlanePt)
  | linestring (ps : List PlanePt)
  | polygon (ring : List PlanePt)
  | multipolygon (rings : List (List PlanePt))
deriving DecidableEq

/-- Rings of a geometry, for the closed-ring invariant. -/
def ringsOf : Geom → List (List PlanePt)
  | .polygon r => [r]
  | .multipolygon rs => rs
  | _ => []

/-- A kind-specific `extra_data` value (string, float, int or bool). -/
inductive ExtraVal where
  | s (v : PyStr)
  | q (v : ℚ)
  | i (v : Int)
  | b (v : Bool)
deriving DecidableEq

/-- The `extra_data` dict: the three keys `generate_uri` probes are explicit,
every other entry lives in `rest`. -/
structure ExtraData where
  center : Option PyStr
  location : Option PyStr
  start_point : Option PyStr
  rest : List (PyStr × ExtraVal)
deriving DecidableEq

/-- The empty `extra_data` dict. -/
def emptyExtra : ExtraData := ⟨none, none, none, []⟩

/-- The dict built by `dxf_entity_to_wkt`:
`{'layer': ..., 'type': ..., 'color': ..., 'wkt': ..., 'extra_data': ...}`. -/
structure ConversionResult where
  layer : PyStr
  entity_type : PyStr
  color : Int
  wkt : Option Geom
  extra_data : ExtraData
deriving DecidableEq

/-- The discriminating `extra_data` field probed by `generate_uri`, in priority
order `center`, then `location`, then `start_point`. -/
def discValue (e : ExtraData) : Option PyStr :=
  match e.center with
  | some v => some v
  | none =>
    match e.location with
    | some v => some v
    | none => e.start_point

/-- The `key_parts` list built by `utils.generate_uri`. -/
def keyParts (r : ConversionResult) : List PyStr :=
  [r.entity_type, r.layer, pyStrOfInt r.color] ++
    (match discValue r.extra_data with
     | some v => [v]
     | none => [])

/-- The default `base_uri` of `utils.generate_uri`. -/
def httpBase : PyStr := pyOfString "http://wistor.nl/entities/"

/-- Model of `utils.generate_uri`: key parts joined with `"||"`, URL-safe base64
encoded, appended to `{base_uri}{clean_layer}/{clean_type}/`. -/
def generate_uri (r : ConversionResult) (base_uri : PyStr) : PyStr :=
  base_uri ++ cleanLayer r.layer ++ [47] ++ pyLower r.entity_type ++ [47] ++
    b64encode (joinBars (keyParts r))

/-- Model of `utils.decode_uri`: base64-decode the last `/`-segment and split on `"||"`. -/
def decode_uri (uri : PyStr) : List PyStr := pySplitBars (b64decode (lastSeg uri))

/-- The sub-kind tag of the `3DFACE`/`SOLID`/`TRACE` branch. -/
inductive FillKind where
  | face3d
  | solid
  | trace
deriving DecidableEq

/-- The `dxftype()` string of a fill-kind entity. -/
def fillName : FillKind → PyStr
  | .face3d => pyOfString "3DFACE"
  | .solid => pyOfString "SOLID"
  | .trace => pyOfString "TRACE"

/-- A parsed CAD entity, one constructor per kind `dxf_entity_to_wkt`
dispatches on, carrying the geometric fields the converter reads. `color` is
`none` when the entity exposes no color attribute. For `hatch`, a path is
`none` when it lacks a `vertices` attribute. For `spline`, `approx` is the
library-approximated point list returned by `entity.approximate()`. -/
inductive CadEntity where
  | line (layer : PyStr) (color : Option Int) (start_p end_p : PlanePt)
  | lwpolyline (layer : PyStr) (color : Option Int) (points : List PlanePt) (closed : Bool)
  | polyline (layer : PyStr) (color : Option Int) (vertices : List PlanePt) (is_closed : Bool)
  | circle (layer : PyStr) (color : Option Int) (center : PlanePt) (radius : ℚ)
  | arc (layer : PyStr) (color : Option Int) (center : PlanePt) (radius : ℚ)
      (start_angle end_angle : ℚ)
  | ellipse (layer : PyStr) (color : Option Int) (center major_axis : PlanePt) ( ratio : ℚ)
  | point (layer : PyStr) (color : Option Int) (location : PlanePt)
  | spline (layer : PyStr) (color : Option Int) (approx : List PlanePt)
      (degree : Int) (control_count : Int)
  | text (layer : PyStr) (color : Option Int) (insert : PlanePt) (content : PyStr)
  | mtext (layer : PyStr) (color : Option Int) (insert : PlanePt) (content : PyStr)
  | filled (layer : PyStr) (color : Option Int) (kind : FillKind) (vertices : List PlanePt)
  | hatch (layer : PyStr) (color : Option Int) (paths : List (Option (List PlanePt)))
      (pattern : PyStr)
  | unsupported (layer : PyStr) (color : Option Int) (kind : PyStr)
deriving DecidableEq

/-- Accessor for `entity.dxf.layer`. -/
def CadEntity.layerOf : CadEntity → PyStr
  | .line l _ _ _ => l
  | .lwpolyline l _ _ _ => l
  | .polyline l _ _ _ => l
  | .circle l _ _ _ => l
  | .arc l _ _ _ _ _ => l
  | .ellipse l _ _ _ _ => l
  | .point l _ _ => l
  | .spline l _ _ _ _ => l
  | .text l _ _ _ => l
  | .mtext l _ _ _ => l
  | .filled l _ _ _ => l
  | .hatch l _ _ _ => l
  | .unsupported l _ _ => l

/-- Accessor for `entity.dxf.color if hasattr(entity.dxf, 'color') else 0`. -/
def CadEntity.colorOf : CadEntity → Option Int
  | .line _ c _ _ => c
  | .lwpolyline _ c _ _ => c
  | .polyline _ c _ _ => c
  | .circle _ c _ _ => c
  | .arc _ c _ _ _ _ => c
  | .ellipse _ c _ _ _ => c
  | .point _ c _ => c
  | .spline _ c _ _ _ => c
  | .text _ c _ _ => c
  | .mtext _ c _ _ => c
  | .filled _ c _ _ => c
  | .hatch _ c _ _ => c
  | .unsupported _ c _ => c

/-- Accessor for `entity.dxftype()`. -/
def CadEntity.dxftype : CadEntity → PyStr
  | .line _ _ _ _ => pyOfString "LINE"
  | .lwpolyline _ _ _ _ => pyOfString "LWPOLYLINE"
  | .polyline _ _ _ _ => pyOfString "POLYLINE"
  | .circle _ _ _ _ => pyOfString "CIRCLE"
  | .arc _ _ _ _ _ _ => pyOfString "ARC"
  | .ellipse _ _ _ _ _ => pyOfString "ELLIPSE"
  | .point _ _ _ => pyOfString "POINT"
  | .spline _ _ _ _ _ => pyOfString "SPLINE"
  | .text _ _ _ _ => pyOfString "TEXT"
  | .mtext _ _ _ _ => pyOfString "MTEXT"
  | .filled _ _ k _ => fillName k
  | .hatch _ _ _ _ => pyOfString "HATCH"
  | .unsupported _ _ k => k

/-- The numeric operations the converters take from `math` and Python float
formatting, left abstract: `cos`, `sin` and `atan2` act on radians, `radians`
and `degrees` convert angle units, `fmt` is `f"{x}"` on a float. -/
structure RealOps where
  cos : ℚ → ℚ
  sin : ℚ → ℚ
  radians : ℚ → ℚ
  degrees : ℚ → ℚ
  atan2 : ℚ → ℚ → ℚ
  sqrt : ℚ → ℚ
  fmt : ℚ → PyStr

/-- Model of the f-string joining two formatted floats with `','` (byte 44). -/
def fmtPair (ops : RealOps) (p : PlanePt) : PyStr := ops.fmt p.1 ++ [44] ++ ops.fmt p.2

/-- Model of `if points[0] != points[-1]: points.append(points[0])` (on nonempty input
in the source; on empty input this is the identity). -/
def closeRing (ps : List PlanePt) : List PlanePt :=
  if ps.head? = ps.getLast? then ps else ps ++ ps.take 1

/-- Model of `points.append(points[0])` (unconditional ring closing of circle/ellipse). -/
def appendFirst (ps : List PlanePt) : List PlanePt := ps ++ ps.take 1

/-- Python `int(q)`: truncation toward zero (numerator divided by
denominator with `Int` division, which truncates toward zero). -/
def pyInt (q : ℚ) : Int := q.num / (q.den : Int)

/-- Arc wrap: `if end_angle < start_angle: end_angle += 360`. -/
def arcWrapEnd (sa ea : ℚ) : ℚ := if ea < sa then ea + 360 else ea

/-- Model of `max(int(angle_span / 5), 8)` for the wrapped arc span. -/
def arcNumSegments (sa ea : ℚ) : Nat := (max (pyInt ((arcWrapEnd sa ea - sa) / 5)) 8).toNat

/-- One sample point on a circle of given center and radius at the given angle
in degrees: `(cx + r*cos(radians(angle)), cy + r*sin(radians(angle)))`. -/
def circlePt (ops : RealOps) (center : PlanePt) (radius : ℚ) (angleDeg : ℚ) : PlanePt :=
  (center.1 + radius * ops.cos (ops.radians angleDeg),
   center.2 + radius * ops.sin (ops.radians angleDeg))

/-- The `i`-th sample point of the ELLIPSE branch: parametric point at
`i*10` degrees, rotated by `atan2(major.y, major.x)`, translated by center. -/
def ellipsePt (ops : RealOps) (center major : PlanePt) ( ratio : ℚ) (i : Nat) : PlanePt :=
  let a := ops.sqrt (major.1 ^ 2 + major.2 ^ 2)
  let b := a * ratio
  let rot := ops.atan2 major.2 major.1
  let ar := ops.radians ((i : ℚ) * 10)
  let x := a * ops.cos ar
  let y := b * ops.sin ar
  (center.1 + x * ops.cos rot - y * ops.sin rot,
   center.2 + x * ops.sin rot + y * ops.cos rot)

/-- The boundary paths collected by the HATCH branch: paths that expose a
`vertices` attribute and whose (transformed) vertex list is nonempty. -/
def hatchCollected (tr : PlanePt → PlanePt) (paths : List (Option (List PlanePt))) :
    List (List PlanePt) :=
  paths.filterMap (fun po =>
    match po with
    | none => none
    | some vs => if vs = [] then none else some (vs.map tr))

/-- Model of `utils.dxf_entity_to_wkt`: converts one entity, transforming every
coordinate through the EPSG:28992 → EPSG:4326 transformer `tr` constructed at
the top of the function. The only in-source raise point is the
`points[0]` index on an empty vertex list in the 3DFACE/SOLID/TRACE branch,
modelled by `Except.error`. -/
def utilsConvert (ops : RealOps) (tr : PlanePt → PlanePt) (e : CadEntity) :
    Except Unit ConversionResult :=
  let base : ConversionResult :=
    { layer := e.layerOf, entity_type := e.dxftype, color := e.colorOf.getD 0,
      wkt := none, extra_data := emptyExtra }
  match e with
  | .line _ _ s en =>
      let s' := tr s
      let e' := tr en
      .ok { base with
        wkt := some (.linestring [s', e']),
        extra_data := { emptyExtra with
          start_point := some (fmtPair ops s'),
          rest := [(pyOfString "end_point", .s (fmtPair ops e'))] } }
  | .lwpolyline _ _ pts closed =>
      let coords := pts.map tr
      let g : Geom :=
        if closed ∧ 2 < coords.length then .polygon (closeRing coords)
        else .linestring coords
      .ok { base with
        wkt := some g,
        extra_data := { emptyExtra with
          rest := [(pyOfString "is_closed", .b closed),
                   (pyOfString "point_count", .i pts.length)] } }
  | .polyline _ _ vs closed =>
      let vertices := vs.map tr
      let verticesAfter :=
        if closed ∧ 2 < vertices.length then closeRing vertices else vertices
      let g : Geom :=
        if closed ∧ 2 < vertices.length then .polygon verticesAfter
        else .linestring verticesAfter
      .ok { base with
        wkt := some g,
        extra_data := { emptyExtra with
          rest := [(pyOfString "is_closed", .b closed),
                   (pyOfString "point_count", .i verticesAfter.length)] } }
  | .circle _ _ center radius =>
      let pts := (List.range 36).map
        (fun (i : Nat) => tr (circlePt ops center radius ((i : ℚ) * 10)))
      .ok { base with
        wkt := some (.polygon (appendFirst pts)),
        extra_data := { emptyExtra with
          center := some (fmtPair ops (tr center)),
          rest := [(pyOfString "radius", .q radius)] } }
  | .arc _ _ center radius sa ea =>
      let ea' := arcWrapEnd sa ea
      let span := ea' - sa
      let n := arcNumSegments sa ea
      let pts := (List.range (n + 1)).map
        (fun (i : Nat) => tr (circlePt ops center radius (sa + span * (i : ℚ) / (n : ℚ))))
      .ok { base with
        wkt := some (.linestring pts),
        extra_data := { emptyExtra with
          center := some (fmtPair ops (tr center)),
          rest := [(pyOfString "radius", .q radius),
                   (pyOfString "start_angle", .q sa),
                   (pyOfString "end_angle", .q ea')] } }
  | .ellipse _ _ center major ratio =>
      let a := ops.sqrt (major.1 ^ 2 + major.2 ^ 2)
      let pts := (List.range 36).map (fun i => tr (ellipsePt ops center major ratio i))
      .ok { base with
        wkt := some (.polygon (appendFirst pts)),
        extra_data := { emptyExtra with
          center := some (fmtPair ops (tr center)),
          rest := [(pyOfString "major_axis", .q a),
                   (pyOfString "minor_axis", .q (a * ratio)),
                   (pyOfString "rotation", .q (ops.degrees (ops.atan2 major.2 major.1)))] } }
  | .point _ _ loc =>
      let p := tr loc
      .ok { base with
        wkt := some (.point p),
        extra_data := { emptyExtra with location := some (fmtPair ops p) } }
  | .spline _ _ approx degree cc =>
      let pts := approx.map tr
      .ok { base with
        wkt := some (.linestring pts),
        extra_data := { emptyExtra with
          rest := [(pyOfString "degree", .i degree),
                   (pyOfString "control_point_count", .i cc)] } }
  | .text _ _ ins content =>
      let p := tr ins
      .ok { base with
        wkt := some (.point p),
        extra_data := { emptyExtra with
          location := some (fmtPair ops p),
          rest := [(pyOfString "text", .s content)] } }
  | .mtext _ _ ins content =>
      let p := tr ins
      .ok { base with
        wkt := some (.point p),
        extra_data := { emptyExtra with
          location := some (fmtPair ops p),
          rest := [(pyOfString "text", .s content)] } }
  | .filled _ _ _ vs =>
      match vs with
      | [] => .error ()
      | _ :: _ =>
          let points := vs.map tr
          .ok { base with
            wkt := some (.polygon (closeRing points)),
            extra_data := { emptyExtra with
              rest := [(pyOfString "vertex_count", .i vs.length)] } }
  | .hatch _ _ paths pattern =>
      let collected := hatchCollected tr paths
      let g : Option Geom :=
        if 1 < collected.length then some (.multipolygon (collected.map closeRing))
        else if collected.length = 1 then some (.polygon (closeRing (collected.headD [])))
        else none
      .ok { base with
        wkt := g,
        extra_data := { emptyExtra with
          rest := [(pyOfString "pattern", .s pattern),
                   (pyOfString "path_count", .i collected.length)] } }
  | .unsupported _ _ _ => .ok base

/-- Model of `streamlit_app.dxf_entity_to_wkt`: the module-local converter actually
called by `export_to_wkt`. Structurally the near-duplicate of the `utils`
version, but with no coordinate transformer: every coordinate (in the WKT and
in the `extra_data` strings) is the raw drawing coordinate. -/
def streamlitConvert (ops : RealOps) (e : CadEntity) : Except Unit ConversionResult :=
  let base : ConversionResult :=
    { layer := e.layerOf, entity_type := e.dxftype, color := e.colorOf.getD 0,
      wkt := none, extra_data := emptyExtra }
  match e with
  | .line _ _ s en =>
      .ok { base with
        wkt := some (.linestring [s, en]),
        extra_data := { emptyExtra with
          start_point := some (fmtPair ops s),
          rest := [(pyOfString "end_point", .s (fmtPair ops en))] } }
  | .lwpolyline _ _ pts closed =>
      let coords := pts
      let g : Geom :=
        if closed ∧ 2 < coords.length then .polygon (closeRing coords)
        else .linestring coords
      .ok { base with
        wkt := some g,
        extra_data := { emptyExtra with
          rest := [(pyOfString "is_closed", .b closed),
                   (pyOfString "point_count", .i pts.length)] } }
  | .polyline _ _ vs closed =>
      let verticesAfter := if closed ∧ 2 < vs.length then closeRing vs else vs
      let g : Geom :=
        if closed ∧ 2 < vs.length then .polygon verticesAfter
        else .linestring verticesAfter
      .ok { base with
        wkt := some g,
        extra_data := { emptyExtra with
          rest := [(pyOfString "is_closed", .b closed),
                   (pyOfString "point_count", .i verticesAfter.length)] } }
  | .circle _ _ center radius =>
      let pts := (List.range 36).map
        (fun (i : Nat) => circlePt ops center radius ((i : ℚ) * 10))
      .ok { base with
        wkt := some (.polygon (appendFirst pts)),
        extra_data := { emptyExtra with
          center := some (fmtPair ops center),
          rest := [(pyOfString "radius", .q radius)] } }
  | .arc _ _ center radius sa ea =>
      let ea' := arcWrapEnd sa ea
      let span := ea' - sa
      let n := arcNumSegments sa ea
      let pts := (List.range (n + 1)).map
        (fun (i : Nat) => circlePt ops center radius (sa + span * (i : ℚ) / (n : ℚ)))
      .ok { base with
        wkt := some (.linestring pts),
        extra_data := { emptyExtra with
          center := some (fmtPair ops center),
          rest := [(pyOfString "radius", .q radius),
                   (pyOfString "start_angle", .q sa),
                   (pyOfString "end_angle", .q ea')] } }
  | .ellipse _ _ center major ratio =>
      let a := ops.sqrt (major.1 ^ 2 + major.2 ^ 2)
      let pts := (List.range 36).map (fun i => ellipsePt ops center major ratio i)
      .ok { base with
        wkt := some (.polygon (appendFirst pts)),
        extra_data := { emptyExtra with
          center := some (fmtPair ops center),
          rest := [(pyOfString "major_axis", .q a),
                   (pyOfString "minor_axis", .q (a * ratio)),
                   (pyOfString "rotation", .q (ops.degrees (ops.atan2 major.2 major.1)))] } }
  | .point _ _ loc =>
      .ok { base with
        wkt := some (.point loc),
        extra_data := { emptyExtra with location := some (fmtPair ops loc) } }
  | .spline _ _ approx degree cc =>
      .ok { base with
        wkt := some (.linestring approx),
        extra_data := { emptyExtra with
          rest := [(pyOfString "degree", .i degree),
                   (pyOfString "control_point_count", .i cc)] } }
  | .text _ _ ins content =>
      .ok { base with
        wkt := some (.point ins),
        extra_data := { emptyExtra with
          location := some (fmtPair ops ins),
          rest := [(pyOfString "text", .s content)] } }
  | .mtext _ _ ins content =>
      .ok { base with
        wkt := some (.point ins),
        extra_data := { emptyExtra with
          location := some (fmtPair ops ins),
          rest := [(pyOfString "text", .s content)] } }
  | .filled _ _ _ vs =>
      match vs with
      | [] => .error ()
      | _ :: _ =>
          .ok { base with
            wkt := some (.polygon (closeRing vs)),
            extra_data := { emptyExtra with
              rest := [(pyOfString "vertex_count", .i vs.length)] } }
  | .hatch _ _ paths pattern =>
      let collected := hatchCollected (fun p => p) paths
      let g : Option Geom :=
        if 1 < collected.length then some (.multipolygon (collected.map closeRing))
        else if collected.length = 1 then some (.polygon (closeRing (collected.headD [])))
        else none
      .ok { base with
        wkt := g,
        extra_data := { emptyExtra with
          rest := [(pyOfString "pattern", .s pattern),
                   (pyOfString "path_count", .i collected.length)] } }
  | .unsupported _ _ _ => .ok base

/-- One output row appended by `export_to_wkt`. -/
structure EntityRecord where
  uri : PyStr
  layer : PyStr
  entity_type : PyStr
  wkt : Geom
  color : Int
  extra_data : ExtraData
deriving DecidableEq

/-- The per-entity body of the `export_to_wkt` loop after the layer check:
convert (via the module-local converter), skip on a raised error or a falsy
`wkt`, otherwise build the record with its generated URI. -/
def recordOf (ops : RealOps) (e : CadEntity) : Option EntityRecord :=
  match streamlitConvert ops e with
  | .error _ => none
  | .ok r =>
    match r.wkt with
    | none => none
    | some w => some ⟨generate_uri r httpBase, r.layer, r.entity_type, w, r.color, r.extra_data⟩

/-- The layer check: keep the entity unless `selected_layers` is nonempty and
the entity's layer is not a member. -/
def layerPass (layers : List PyStr) (e : CadEntity) : Bool :=
  layers.isEmpty || layers.contains e.layerOf

/-- Model of `streamlit_app.export_to_wkt`: a `None`/falsy drawing yields an empty
result; otherwise iterate model space in order, layer-filter, convert, skip
failures, accumulate records. -/
def export_to_wkt (ops : RealOps) (doc : Option (List CadEntity)) (layers : List PyStr) :
    List EntityRecord :=
  match doc with
  | none => []
  | some es => es.filterMap (fun e => if layerPass layers e then recordOf ops e else none)

/-- Model of `utils.dxf_entity_to_wkt` instrumented with a transformer-construction
counter: `Transformer.from_crs` runs unconditionally at the top of every call
(utils.py line 70), so each call adds exactly one construction. -/
def utilsConvertInstr (ops : RealOps) (tr : PlanePt → PlanePt) (e : CadEntity) (n : Nat) :
    Except Unit ConversionResult × Nat :=
  (utilsConvert ops tr e, n + 1)

/-- Model of `streamlit_app.dxf_entity_to_wkt` instrumented with the same counter: the
function contains no `Transformer.from_crs` call, so the count is unchanged. -/
def streamlitConvertInstr (ops : RealOps) (e : CadEntity) (n : Nat) :
    Except Unit ConversionResult × Nat :=
  (streamlitConvert ops e, n)

/-- Model of `export_to_wkt` instrumented with the transformer-construction counter
threaded through its per-entity conversion calls. -/
def exportInstr (ops : RealOps) (doc : Option (List CadEntity)) (layers : List PyStr)
    (n : Nat) : List EntityRecord × Nat :=
  match doc with
  | none => ([], n)
  | some es =>
    es.foldl
      (fun acc e =>
        if layerPass layers e then
          let res := streamlitConvertInstr ops e acc.2
          match res.1 with
          | .error _ => (acc.1, res.2)
          | .ok r =>
            match r.wkt with
            | none => (acc.1, res.2)
            | some w =>
              (acc.1 ++ [⟨generate_uri r httpBase, r.layer, r.entity_type, w, r.color,
                 r.extra_data⟩], res.2)
        else acc)
      ([], n)

/-- Concrete instantiation of the abstract numeric operations, used to
evaluate the model at concrete inputs. -/
def ops0 : RealOps :=
  ⟨fun _ => 0, fun _ => 0, fun _ => 0, fun _ => 0, fun _ _ => 0, fun _ => 0, fun _ => [48]⟩

/-- A concrete non-identity coordinate transformation (standing in for the
EPSG:28992 → EPSG:4326 map, which moves every drawing coordinate). -/
def tr0 : PlanePt → PlanePt := fun p => (p.1 + 1, p.2 + 1)

/-- A concrete LINE entity on layer `"A"` from `(0,0)` to `(1,1)`. -/
def eLine0 : CadEntity := .line (pyOfString "A") none (0, 0) (1, 1)

/-- A concrete LINE entity on layer `"B"`. -/
def eLineB : CadEntity := .line (pyOfString "B") none (2, 2) (3, 3)

/-- A concrete closed LWPOLYLINE with three vertices. -/
def eLw0 : CadEntity := .lwpolyline (pyOfString "A") none [(0, 0), (1, 0), (0, 1)] true

/-- The boundary paths of the concrete HATCH entity `eHatch0`. -/
def eHatchPaths : List (Option (List PlanePt)) :=
  [some [(0, 0), (1, 0), (0, 1)], none, some [], some [(2, 0), (3, 0), (2, 1)]]

/-- A concrete HATCH with two usable boundary paths, one path without a
`vertices` attribute and one empty path. -/
def eHatch0 : CadEntity :=
  .hatch (pyOfString "A") none eHatchPaths (pyOfString "SOLID")

/-- A concrete unsupported entity. -/
def eUnsup0 : CadEntity := .unsupported (pyOfString "A") none (pyOfString "INSERT")

/-- The closed ring produced for `eLw0`. -/
def ring0 : List PlanePt := [(0, 0), (1, 0), (0, 1), (0, 0)]

/-- A default record for `headD`. -/
def recDefault : EntityRecord := ⟨[], [], [], .point (0, 0), 0, emptyExtra⟩

/-- A conversion result whose fields are benign ASCII. -/
def r3 : ConversionResult :=
  ⟨pyOfString "layer a", pyOfString "LINE", 7, none,
   ⟨some (pyOfString "1.5,2.5"), none, none, []⟩⟩

/-- A conversion result whose entity type ends with `'|'` and whose layer
begins with `'|'`: neither field contains `"||"`, yet joining them produces
spurious delimiter occurrences. -/
def r3c : ConversionResult := ⟨[124, 98], [97, 124], 0, none, emptyExtra⟩

/-- First of a pair of results agreeing on type, layer, color and the
discriminating field but differing in `wkt` and other `extra_data`. -/
def r4a : ConversionResult :=
  ⟨pyOfString "A", pyOfString "CIRCLE", 3, some (.point (0, 0)),
   ⟨some (pyOfString "5,6"), none, none, [(pyOfString "radius", .q 1)]⟩⟩

/-- Second of the pair: same identity-relevant fields as `r4a`, different
`wkt`, different `location` and different `rest` entries. -/
def r4b : ConversionResult :=
  ⟨pyOfString "A", pyOfString "CIRCLE", 3, some (.linestring [(9, 9), (8, 8)]),
   ⟨some (pyOfString "5,6"), some (pyOfString "7,8"), none,
    [(pyOfString "radius", .q 2), (pyOfString "text", .s (pyOfString "x"))]⟩⟩

/-! ### Lemmas about the byte-string toolbox -/

theorem decB64_encB64 : ∀ n, n < 64 → decB64 (encB64 n) = n := by decide

theorem encB64_ne_61 (n : Nat) : encB64 n ≠ 61 := by
  unfold encB64
  split_ifs <;> omega

theorem encB64_ne_47 (n : Nat) : encB64 n ≠ 47 := by
  unfold encB64
  split_ifs <;> omega

theorem encB64_bne_61 (n : Nat) : (encB64 n != 61) = true := by
  simp [encB64_ne_61 n]

/-- Round trip of the URL-safe base64 pair on byte sequences. -/
theorem b64_roundtrip : ∀ l : List Nat, (∀ x ∈ l, x < 256) → b64decode (b64encode l) = l
  | [], _ => rfl
  | [a], h => by
      have ha : a < 256 := h a (by simp)
      have h1 : a / 4 < 64 := by omega
      have h2 : a % 4 * 16 < 64 := by omega
      show b64decodeCore (List.filter _ (b64encode [a])) = _
      rw [show b64encode [a] = [encB64 (a / 4), encB64 (a % 4 * 16), 61, 61] from rfl]
      simp only [List.filter, encB64_bne_61]
      norm_num [b64decodeCore, decB64_encB64 _ h1, decB64_encB64 _ h2]
      omega
  | [a, b], h => by
      have ha : a < 256 := h a (by simp)
      have hb : b < 256 := h b (by simp)
      have h1 : a / 4 < 64 := by omega
      have h2 : a % 4 * 16 + b / 16 < 64 := by omega
      have h3 : b % 16 * 4 < 64 := by omega
      show b64decodeCore (List.filter _ (b64encode [a, b])) = _
      rw [show b64encode [a, b] =
        [encB64 (a / 4), encB64 (a % 4 * 16 + b / 16), encB64 (b % 16 * 4), 61] from rfl]
      simp only [List.filter, encB64_bne_61]
      norm_num [b64decodeCore, decB64_encB64 _ h1, decB64_encB64 _ h2, decB64_encB64 _ h3]
      constructor <;> omega
  | a :: b :: c :: rest, h => by
      have ha : a < 256 := h a (by simp)
      have hb : b < 256 := h b (by simp)
      have hc : c < 256 := h c (by simp)
      have h1 : a / 4 < 64 := by omega
      have h2 : a % 4 * 16 + b / 16 < 64 := by omega
      have h3 : b % 16 * 4 + c / 64 < 64 := by omega
      have h4 : c % 64 < 64 := by omega
      have ih := b64_roundtrip rest (fun x hx => h x (by simp [hx]))
      show b64decodeCore (List.filter _ (b64encode (a :: b :: c :: rest))) = _
      rw [show b64encode (a :: b :: c :: rest) =
        encB64 (a / 4) :: encB64 (a % 4 * 16 + b / 16) ::
        encB64 (b % 16 * 4 + c / 64) :: encB64 (c % 64) :: b64encode rest from rfl]
      simp only [List.filter, encB64_bne_61]
      rw [show ∀ w x y z L, b64decodeCore (w :: x :: y :: z :: L) =
        (decB64 w * 4 + decB64 x / 16) :: (decB64 x % 16 * 16 + decB64 y / 4) ::
        (decB64 y % 4 * 64 + decB64 z) :: b64decodeCore L from fun _ _ _ _ _ => rfl]
      rw [decB64_encB64 _ h1, decB64_encB64 _ h2, decB64_encB64 _ h3, decB64_encB64 _ h4]
      have hrest : b64decodeCore (List.filter (fun c => c != 61) (b64encode rest)) = rest := ih
      rw [hrest]
      have d16 : b / 16 < 16 := by omega
      have d64 : c / 64 < 4 := by omega
      have e1 : (a % 4 * 16 + b / 16) / 16 = a % 4 := by omega
      have e2 : (a % 4 * 16 + b / 16) % 16 = b / 16 := by omega
      have e3 : (b % 16 * 4 + c / 64) / 4 = b % 16 := by omega
      have e4 : (b % 16 * 4 + c / 64) % 4 = c / 64 := by omega
      rw [e1, e2, e3, e4]
      have f1 : a / 4 * 4 + a % 4 = a := by omega
      have f2 : b / 16 * 16 + b % 16 = b := by omega
      have f3 : c / 64 * 64 + c % 64 = c := by omega
      rw [f1, f2, f3]

/-- The encoder `b64encode` never emits the byte `'/'`. -/
theorem b64encode_no_slash : ∀ l : List Nat, ∀ c ∈ b64encode l, c ≠ 47
  | [], c, hc => by simp [b64encode] at hc
  | [a], c, hc => by
      simp only [b64encode, List.mem_cons, List.not_mem_nil, or_false] at hc
      rcases hc with h | h | h | h <;> subst h <;> first | exact encB64_ne_47 _ | omega
  | [a, b], c, hc => by
      simp only [b64encode, List.mem_cons, List.not_mem_nil, or_false] at hc
      rcases hc with h | h | h | h <;> subst h <;> first | exact encB64_ne_47 _ | omega
  | a :: b :: d :: rest, c, hc => by
      simp only [b64encode, List.mem_cons] at hc
      rcases hc with h | h | h | h | h
      · subst h; exact encB64_ne_47 _
      · subst h; exact encB64_ne_47 _
      · subst h; exact encB64_ne_47 _
      · subst h; exact encB64_ne_47 _
      · exact b64encode_no_slash rest c h

theorem takeWhile_all_append (p : Nat → Bool) :
    ∀ (a : List Nat) (c : Nat) (b : List Nat), (∀ x ∈ a, p x = true) → p c = false →
      ((a ++ c :: b).takeWhile p) = a
  | [], c, b, _, hc => by
      rw [List.nil_append, List.takeWhile_cons_of_neg (by simp [hc])]
  | x :: a, c, b, ha, hc => by
      have hx : p x = true := ha x (by simp)
      have ih := takeWhile_all_append p a c b (fun y hy => ha y (by simp [hy])) hc
      rw [List.cons_append, List.takeWhile_cons_of_pos hx, ih]

/-- Taking `uri.split('/')[-1]` of a string ending in `'/' ++ t` with `t` free of
`'/'` is exactly `t`. -/
theorem lastSeg_append (s t : List Nat) (h : ∀ x ∈ t, x ≠ 47) :
    lastSeg (s ++ 47 :: t) = t := by
  unfold lastSeg
  rw [List.reverse_append]
  rw [show (47 :: t).reverse = t.reverse ++ [47] from by simp]
  rw [List.append_assoc]
  rw [show ([47] : List Nat) ++ s.reverse = 47 :: s.reverse from rfl]
  rw [takeWhile_all_append _ t.reverse 47 s.reverse
    (fun x hx => by simp [h x (List.mem_reverse.mp hx)]) (by simp)]
  exact List.reverse_reverse t

/-- A string with no occurrence of `"||"` is not split. -/
theorem splitBars_of_no_bars : ∀ p : List Nat, containsBars p = false → pySplitBars p = [p]
  | [], _ => rfl
  | [c], _ => rfl
  | c :: d :: rest, h => by
      have hcd : ¬(c = 124 ∧ d = 124) := by
        intro ⟨h1, h2⟩
        subst h1; subst h2
        simp [containsBars] at h
      have htail : containsBars (d :: rest) = false := by
        simp only [containsBars, Bool.or_eq_false_iff] at h
        exact h.2
      simp only [pySplitBars, if_neg hcd]
      rw [splitBars_of_no_bars (d :: rest) htail]

/-- Splitting after a leading part with no `"||"` and no trailing `'|'`
consumes exactly that part and the delimiter after it. -/
theorem splitBars_append : ∀ p r : List Nat, containsBars p = false → endsBar p = false →
    pySplitBars (p ++ 124 :: 124 :: r) = p :: pySplitBars r
  | [], r, _, _ => by simp [pySplitBars]
  | [c], r, _, h2 => by
      have hc : c ≠ 124 := by simpa [endsBar] using h2
      simp [pySplitBars, hc]
  | c :: d :: rest, r, h1, h2 => by
      have hcd : ¬(c = 124 ∧ d = 124) := by
        intro ⟨ha, hb⟩
        subst ha; subst hb
        simp [containsBars] at h1
      have htail1 : containsBars (d :: rest) = false := by
        simp only [containsBars, Bool.or_eq_false_iff] at h1
        exact h1.2
      have htail2 : endsBar (d :: rest) = false := h2
      have ih := splitBars_append (d :: rest) r htail1 htail2
      rw [show (c :: d :: rest) ++ 124 :: 124 :: r
          = c :: d :: (rest ++ 124 :: 124 :: r) from by simp]
      simp only [pySplitBars]
      rw [if_neg hcd]
      rw [show d :: (rest ++ 124 :: 124 :: r) = (d :: rest) ++ 124 :: 124 :: r from by simp]
      rw [ih]

/-- Splitting on `"||"` inverts `"||".join` on joinable part lists. -/
theorem splitBars_joinBars : ∀ ps : List PyStr, ps ≠ [] → goodParts ps = true →
    pySplitBars (joinBars ps) = ps
  | [], h, _ => absurd rfl h
  | [p], _, hg => by
      have : containsBars p = false := by
        simpa [goodParts, Bool.not_eq_true'] using hg
      simpa [joinBars] using splitBars_of_no_bars p this
  | p :: q :: ps, _, hg => by
      have h1 : (containsBars p = false ∧ endsBar p = false) ∧ goodParts (q :: ps) = true := by
        simpa [goodParts, Bool.and_eq_true, Bool.not_eq_true'] using hg
      rw [show joinBars (p :: q :: ps) = p ++ 124 :: 124 :: joinBars (q :: ps) from rfl]
      rw [splitBars_append p _ h1.1.1 h1.1.2]
      rw [splitBars_joinBars (q :: ps) (by simp) h1.2]

/-- Every byte of a join of byte-bounded parts is a byte. -/
theorem joinBars_lt : ∀ ps : List PyStr, (∀ p ∈ ps, ∀ x ∈ p, x < 256) →
    ∀ x ∈ joinBars ps, x < 256
  | [], _, x, hx => by simp [joinBars] at hx
  | [p], h, x, hx => h p (by simp) x (by simpa [joinBars] using hx)
  | p :: q :: ps, h, x, hx => by
      rw [show joinBars (p :: q :: ps) = p ++ 124 :: 124 :: joinBars (q :: ps) from rfl] at hx
      simp only [List.mem_append, List.mem_cons] at hx
      rcases hx with hx | hx | hx | hx
      · exact h p (by simp) x hx
      · omega
      · omega
      · exact joinBars_lt (q :: ps) (fun p' hp' => h p' (by simp [hp'])) x hx

/-! ### C3 and C4: URI generation and decoding -/

/-- C3 counterexample: a `ConversionResult` whose entity type is `"a|"` and
whose layer is `"|b"` — none of the key fields contains the delimiter `"||"`
and there is no discriminating field — yet `decode_uri` of its generated URI
is not the ordered key-part list, because joining `"a|"`, `"|b"`, `"0"` with
`"||"` creates spurious delimiter occurrences. -/
theorem C3_counterexample :
    containsBars r3c.entity_type = false ∧ containsBars r3c.layer = false ∧
    containsBars (pyStrOfInt r3c.color) = false ∧ discValue r3c.extra_data = none ∧
    decode_uri (generate_uri r3c httpBase) ≠ keyParts r3c := by decide

/-- C3 (amended): if additionally no key part other than the last ends with a
single `'|'` (and the parts are byte strings), `decode_uri` of the generated
URI recovers exactly the ordered key-part list `[entity_type, layer,
str(color)]` followed by the discriminating field when present. -/
theorem C3_decode_generate_roundtrip (base : PyStr) (r : ConversionResult)
    (hgood : goodParts (keyParts r) = true)
    (hbytes : ∀ p ∈ keyParts r, ∀ x ∈ p, x < 256) :
    decode_uri (generate_uri r base) = keyParts r := by
  unfold decode_uri generate_uri
  rw [show base ++ cleanLayer r.layer ++ [47] ++ pyLower r.entity_type ++ [47] ++
        b64encode (joinBars (keyParts r))
      = (base ++ cleanLayer r.layer ++ [47] ++ pyLower r.entity_type) ++
        47 :: b64encode (joinBars (keyParts r)) from by simp]
  rw [lastSeg_append _ _ (b64encode_no_slash _)]
  rw [b64_roundtrip _ (joinBars_lt _ hbytes)]
  exact splitBars_joinBars _ (by simp [keyParts]) hgood

/-- C3 witness: the amended round trip evaluated on a concrete result with
benign fields. -/
theorem C3_witness :
    goodParts (keyParts r3) = true ∧ decode_uri (generate_uri r3 httpBase) = keyParts r3 :=
  ⟨by decide, C3_decode_generate_roundtrip httpBase r3 (by decide) (by decide)⟩

/-- C4: `generate_uri` depends only on the entity type, layer, color and the
discriminating field chosen by the priority `center`, `location`,
`start_point`, none: two results agreeing on those produce identical URIs
regardless of their `wkt` or any other `extra_data` entries. -/
theorem C4_generate_uri_deterministic (base : PyStr) (q1 q2 : ConversionResult)
    (ht : q1.entity_type = q2.entity_type) (hl : q1.layer = q2.layer)
    (hc : q1.color = q2.color) (hd : discValue q1.extra_data = discValue q2.extra_data) :
    generate_uri q1 base = generate_uri q2 base := by
  unfold generate_uri keyParts
  rw [ht, hl, hc, hd]

/-- C4 witness: two concrete results differing in `wkt` and in other
`extra_data` entries but agreeing on the identity-relevant fields get the same
URI. -/
theorem C4_witness :
    r4a.wkt ≠ r4b.wkt ∧ r4a.extra_data ≠ r4b.extra_data ∧
    generate_uri r4a httpBase = generate_uri r4b httpBase :=
  ⟨by decide, by decide,
   C4_generate_uri_deterministic httpBase r4a r4b (by decide) (by decide) (by decide)
     (by decide)⟩

/-! ### Ring lemmas and the geometry claims -/

/-- The function `closeRing` always produces a list whose first and last entries agree. -/
theorem closeRing_head_last (ps : List PlanePt) :
    (closeRing ps).head? = (closeRing ps).getLast? := by
  unfold closeRing
  split
  · next h => exact h
  · next h =>
      cases ps with
      | nil => simp at h
      | cons x t =>
          show ((x :: t) ++ [x]).head? = ((x :: t) ++ [x]).getLast?
          rw [List.getLast?_concat]
          simp

/-- The function `appendFirst` closes any nonempty list. -/
theorem appendFirst_head_last (ps : List PlanePt) (h : ps ≠ []) :
    (appendFirst ps).head? = (appendFirst ps).getLast? := by
  cases ps with
  | nil => exact absurd rfl h
  | cons x t =>
      show ((x :: t) ++ [x]).head? = ((x :: t) ++ [x]).getLast?
      rw [List.getLast?_concat]
      simp

/-- C6: every ring of a POLYGON or MULTIPOLYGON geometry produced by
`utils.dxf_entity_to_wkt` (closed LwPolyline/Polyline, Circle, Ellipse,
Face/Solid/Trace, Hatch) has equal first and last coordinate pairs. -/
theorem C6_rings_closed (ops : RealOps) (tr : PlanePt → PlanePt) (e : CadEntity)
    (r : ConversionResult) (g : Geom) (hok : utilsConvert ops tr e = .ok r)
    (hw : r.wkt = some g) : ∀ ring ∈ ringsOf g, ring.head? = ring.getLast? := by
  intro ring hring
  cases e with
  | line l c s en =>
      simp only [utilsConvert] at hok
      cases hok
      simp only at hw
      cases hw
      simp [ringsOf] at hring
  | lwpolyline l c pts closed =>
      simp only [utilsConvert] at hok
      cases hok
      simp only at hw
      cases hw
      split at hring
      · simp only [ringsOf, List.mem_singleton] at hring
        subst hring
        exact closeRing_head_last _
      · simp [ringsOf] at hring
  | polyline l c vs closed =>
      simp only [utilsConvert] at hok
      cases hok
      simp only at hw
      cases hw
      split at hring
      · next hcond =>
          simp only [ringsOf, List.mem_singleton] at hring
          subst hring
          exact closeRing_head_last _
      · simp [ringsOf] at hring
  | circle l c center radius =>
      simp only [utilsConvert] at hok
      cases hok
      simp only at hw
      cases hw
      simp only [ringsOf, List.mem_singleton] at hring
      subst hring
      exact appendFirst_head_last _ (fun hc => by simpa using congrArg List.length hc)
  | arc l c center radius sa ea =>
      simp only [utilsConvert] at hok
      cases hok
      simp only at hw
      cases hw
      simp [ringsOf] at hring
  | ellipse l c center major ratio =>
      simp only [utilsConvert] at hok
      cases hok
      simp only at hw
      cases hw
      simp only [ringsOf, List.mem_singleton] at hring
      subst hring
      exact appendFirst_head_last _ (fun hc => by simpa using congrArg List.length hc)
  | point l c loc =>
      simp only [utilsConvert] at hok
      cases hok
      simp only at hw
      cases hw
      simp [ringsOf] at hring
  | spline l c approx degree cc =>
      simp only [utilsConvert] at hok
      cases hok
      simp only at hw
      cases hw
      simp [ringsOf] at hring
  | text l c ins content =>
      simp only [utilsConvert] at hok
      cases hok
      simp only at hw
      cases hw
      simp [ringsOf] at hring
  | mtext l c ins content =>
      simp only [utilsConvert] at hok
      cases hok
      simp only at hw
      cases hw
      simp [ringsOf] at hring
  | filled l c k vs =>
      simp only [utilsConvert] at hok
      cases vs with
      | nil => simp at hok
      | cons v vt =>
          cases hok
          simp only at hw
          cases hw
          simp only [ringsOf, List.mem_singleton] at hring
          subst hring
          exact closeRing_head_last _
  | hatch l c paths pattern =>
      simp only [utilsConvert] at hok
      cases hok
      simp only at hw
      split at hw
      · cases hw
        simp only [ringsOf, List.mem_map] at hring
        obtain ⟨p, _, rfl⟩ := hring
        exact closeRing_head_last _
      · split at hw
        · cases hw
          simp only [ringsOf, List.mem_singleton] at hring
          subst hring
          exact closeRing_head_last _
        · exact absurd hw (by simp)
  | unsupported l c k =>
      simp only [utilsConvert] at hok
      cases hok
      simp at hw

/-- C6 witness: the closed LWPOLYLINE `eLw0` converts to a polygon whose
single ring `ring0` has equal first and last points. -/
theorem C6_witness :
    ∃ r g, utilsConvert ops0 (fun p => p) eLw0 = .ok r ∧ r.wkt = some g ∧
      ring0 ∈ ringsOf g ∧ ring0.head? = ring0.getLast? := by
  refine ⟨_, _, rfl, rfl, by decide, ?_⟩
  exact C6_rings_closed ops0 (fun p => p) eLw0 _ _ rfl rfl ring0 (by decide)

/-- The segment count `arcNumSegments` is at least 8. -/
theorem arcNumSegments_pos (sa ea : ℚ) : 0 < arcNumSegments sa ea := by
  unfold arcNumSegments
  have h := le_max_right (pyInt ((arcWrapEnd sa ea - sa) / 5)) 8
  omega

/-- C7: an ARC converts to a LINESTRING with `max(int(span/5), 8) + 1` points
sampled inclusively from `start_angle` to the wrapped end angle (with 360
added when `end_angle < start_angle`); an arc from 350 to 10 degrees gets 8
segments, hence 9 points. -/
theorem C7_arc_sampling (ops : RealOps) (tr : PlanePt → PlanePt) (l : PyStr)
    (c : Option Int) (center : PlanePt) (radius sa ea : ℚ) :
    ∃ r pts, utilsConvert ops tr (.arc l c center radius sa ea) = .ok r ∧
      r.wkt = some (.linestring pts) ∧
      pts.length = arcNumSegments sa ea + 1 ∧
      pts.head? = some (tr (circlePt ops center radius sa)) ∧
      pts.getLast? = some (tr (circlePt ops center radius (arcWrapEnd sa ea))) ∧
      arcNumSegments 350 10 = 8 := by
  refine ⟨_, _, rfl, rfl, ?_, ?_, ?_, ?_⟩
  · simp
  · rw [List.range_succ_eq_map]
    simp only [List.map_cons, List.head?_cons]
    norm_num
  · have hn : ((arcNumSegments sa ea : ℚ)) ≠ 0 :=
      Nat.cast_ne_zero.mpr (by have := arcNumSegments_pos sa ea; omega)
    rw [List.range_succ, List.map_append]
    simp only [List.map_cons, List.map_nil]
    rw [List.getLast?_concat]
    congr 2
    rw [mul_div_assoc, div_self hn, mul_one]
    ring_nf
  · show arcNumSegments 350 10 = 8
    have h1 : arcWrapEnd 350 10 = 370 := by norm_num [arcWrapEnd]
    unfold arcNumSegments
    rw [h1]
    norm_num [pyInt]
    rfl

/-- C8: a HATCH collects exactly the nonempty vertex-bearing boundary paths;
two or more collected paths give a MULTIPOLYGON of independently closed
rings, exactly one gives a POLYGON, none leaves `wkt` as `None`. -/
theorem C8_hatch_paths (ops : RealOps) (tr : PlanePt → PlanePt) (l : PyStr) (c : Option Int)
    (paths : List (Option (List PlanePt))) (pattern : PyStr) :
    ∃ r, utilsConvert ops tr (.hatch l c paths pattern) = .ok r ∧
      (1 < (hatchCollected tr paths).length →
        r.wkt = some (.multipolygon ((hatchCollected tr paths).map closeRing))) ∧
      (∀ p, hatchCollected tr paths = [p] → r.wkt = some (.polygon (closeRing p))) ∧
      (hatchCollected tr paths = [] → r.wkt = none) := by
  refine ⟨_, rfl, ?_, ?_, ?_⟩
  · intro h
    show (if 1 < (hatchCollected tr paths).length then _ else _) = _
    rw [if_pos h]
  · intro p hp
    show (if 1 < (hatchCollected tr paths).length then _ else _) = _
    rw [hp]
    norm_num
  · intro h
    show (if 1 < (hatchCollected tr paths).length then _ else _) = _
    rw [h]
    norm_num

/-- C8 witness: the concrete hatch `eHatch0` has two collected paths and
converts to the expected MULTIPOLYGON. -/
theorem C8_witness :
    1 < (hatchCollected (fun p => p) eHatchPaths).length ∧
    ∃ r, utilsConvert ops0 (fun p => p) eHatch0 = .ok r ∧
      r.wkt = some (.multipolygon ((hatchCollected (fun p => p) eHatchPaths).map closeRing)) := by
  obtain ⟨r, h1, h2, _, _⟩ :=
    C8_hatch_paths ops0 (fun p => p) (pyOfString "A") none eHatchPaths (pyOfString "SOLID")
  exact ⟨by decide, r, h1, h2 (by decide)⟩


/-! ### Batch export lemmas and claims -/

/-- The module-local converter copies the entity's layer into the result. -/
theorem streamlitConvert_layer (ops : RealOps) (e : CadEntity) (cr : ConversionResult)
    (h : streamlitConvert ops e = .ok cr) : cr.layer = e.layerOf := by
  cases e with
  | filled l c k vs =>
      simp only [streamlitConvert] at h
      cases vs with
      | nil => simp at h
      | cons v vt => cases h; rfl
  | line l c s en => simp only [streamlitConvert] at h; cases h; rfl
  | lwpolyline l c pts closed => simp only [streamlitConvert] at h; cases h; rfl
  | polyline l c vs closed => simp only [streamlitConvert] at h; cases h; rfl
  | circle l c center radius => simp only [streamlitConvert] at h; cases h; rfl
  | arc l c center radius sa ea => simp only [streamlitConvert] at h; cases h; rfl
  | ellipse l c center major ratio => simp only [streamlitConvert] at h; cases h; rfl
  | point l c loc => simp only [streamlitConvert] at h; cases h; rfl
  | spline l c approx degree cc => simp only [streamlitConvert] at h; cases h; rfl
  | text l c ins content => simp only [streamlitConvert] at h; cases h; rfl
  | mtext l c ins content => simp only [streamlitConvert] at h; cases h; rfl
  | hatch l c paths pattern => simp only [streamlitConvert] at h; cases h; rfl
  | unsupported l c k => simp only [streamlitConvert] at h; cases h; rfl

/-- The export loop is the layer filter followed by per-entity conversion. -/
theorem export_eq_filterMap (ops : RealOps) (es : List CadEntity) (layers : List PyStr) :
    export_to_wkt ops (some es) layers =
      (es.filter (layerPass layers)).filterMap (recordOf ops) := by
  induction es with
  | nil => rfl
  | cons e es ih =>
      simp only [export_to_wkt] at ih ⊢
      rw [List.filterMap_cons, List.filter_cons]
      cases hp : layerPass layers e with
      | false =>
          simp only [hp, Bool.false_eq_true, if_false, cond_false]
          exact ih
      | true =>
          simp only [hp, if_true, cond_true, List.filterMap_cons]
          cases hr : recordOf ops e with
          | none => exact ih
          | some b => rw [ih]

/-- Length of a `filterMap` in terms of the entries mapped to `none`. -/
theorem length_filterMap_sub (f : CadEntity → Option EntityRecord) (l : List CadEntity) :
    (l.filterMap f).length = l.length - l.countP (fun a => (f a).isNone) := by
  induction l with
  | nil => rfl
  | cons a l ih =>
      have hle := List.countP_le_length (p := fun a => (f a).isNone) (l := l)
      rw [List.filterMap_cons, List.countP_cons]
      cases hf : f a with
      | none => simp [hf, ih]
      | some b =>
          simp only [hf, Option.isNone_some, List.length_cons]
          rw [ih]
          simp only [Bool.false_eq_true, if_false]
          omega

/-- C1: the batch export never surfaces a per-entity error: over the
layer-filtered entities it returns exactly one record per successful
conversion (count `N − K` where `K` counts raised or null-WKT conversions),
in iteration order, and every returned record stems from an entity whose
conversion returned a non-null WKT. -/
theorem C1_export_partial_failure (ops : RealOps) (es : List CadEntity)
    (layers : List PyStr) :
    (export_to_wkt ops (some es) layers).length =
      (es.filter (layerPass layers)).length -
        (es.filter (layerPass layers)).countP (fun e => (recordOf ops e).isNone) ∧
    export_to_wkt ops (some es) layers =
      (es.filter (layerPass layers)).filterMap (recordOf ops) ∧
    ∀ rec ∈ export_to_wkt ops (some es) layers,
      ∃ e, e ∈ es ∧ layerPass layers e = true ∧
        ∃ cr, streamlitConvert ops e = .ok cr ∧ cr.wkt = some rec.wkt := by
  refine ⟨?_, export_eq_filterMap ops es layers, ?_⟩
  · rw [export_eq_filterMap ops es layers]
    exact length_filterMap_sub (recordOf ops) _
  · intro rec hrec
    rw [export_eq_filterMap ops es layers] at hrec
    obtain ⟨e, he, hfe⟩ := List.mem_filterMap.mp hrec
    have he' := List.mem_filter.mp he
    refine ⟨e, he'.1, he'.2, ?_⟩
    unfold recordOf at hfe
    cases hs : streamlitConvert ops e with
    | error u => rw [hs] at hfe; simp at hfe
    | ok cr =>
        rw [hs] at hfe
        simp only at hfe
        cases hw : cr.wkt with
        | none => rw [hw] at hfe; simp at hfe
        | some w =>
            rw [hw] at hfe
            simp only [Option.some.injEq] at hfe
            refine ⟨cr, rfl, ?_⟩
            rw [hw, ← hfe]

/-- The record produced for the concrete batch `[eLine0, eUnsup0]`. -/
def rec0 : EntityRecord := (export_to_wkt ops0 (some [eLine0, eUnsup0]) []).headD recDefault

/-- C1 witness: a concrete batch with one LINE and one unsupported entity
yields a record whose provenance the theorem certifies. -/
theorem C1_witness :
    rec0 ∈ export_to_wkt ops0 (some [eLine0, eUnsup0]) [] ∧
    ∃ e, e ∈ [eLine0, eUnsup0] ∧ layerPass [] e = true ∧
      ∃ cr, streamlitConvert ops0 e = .ok cr ∧ cr.wkt = some rec0.wkt :=
  ⟨by decide,
   (C1_export_partial_failure ops0 [eLine0, eUnsup0] []).2.2 rec0 (by decide)⟩

/-- C9: with a nonempty layer selection every returned record's layer is a
selected layer (non-members are skipped before conversion), and with the
empty selection no entity is filtered out by layer. -/
theorem C9_layer_filter (ops : RealOps) (es : List CadEntity) (layers : List PyStr) :
    (∀ rec ∈ export_to_wkt ops (some es) layers, layers ≠ [] → rec.layer ∈ layers) ∧
    export_to_wkt ops (some es) [] = es.filterMap (recordOf ops) := by
  constructor
  · intro rec hrec hne
    rw [export_eq_filterMap ops es layers] at hrec
    obtain ⟨e, he, hfe⟩ := List.mem_filterMap.mp hrec
    have he' := (List.mem_filter.mp he).2
    have hmem : e.layerOf ∈ layers := by
      have : layers.contains e.layerOf = true := by
        simp only [layerPass, Bool.or_eq_true, List.isEmpty_iff] at he'
        rcases he' with h | h
        · exact absurd h hne
        · exact h
      simpa using this
    have hlay : rec.layer = e.layerOf := by
      unfold recordOf at hfe
      cases hs : streamlitConvert ops e with
      | error u => rw [hs] at hfe; simp at hfe
      | ok cr =>
          rw [hs] at hfe
          simp only at hfe
          cases hw : cr.wkt with
          | none => rw [hw] at hfe; simp at hfe
          | some w =>
              rw [hw] at hfe
              simp only [Option.some.injEq] at hfe
              rw [← hfe]
              exact streamlitConvert_layer ops e cr hs
    rw [hlay]
    exact hmem
  · rw [export_eq_filterMap ops es []]
    congr 1
    rw [List.filter_eq_self.mpr]
    intro e _
    rfl

/-- The first record of the layer-filtered concrete export. -/
def recA : EntityRecord :=
  (export_to_wkt ops0 (some [eLine0, eLineB]) [pyOfString "A"]).headD recDefault

/-- C9 witness: exporting layers `{"A"}` over a drawing with layers A and B
yields a record and its layer is certified to lie in the selection. -/
theorem C9_witness :
    recA ∈ export_to_wkt ops0 (some [eLine0, eLineB]) [pyOfString "A"] ∧
    recA.layer ∈ [pyOfString "A"] :=
  ⟨by decide,
   (C9_layer_filter ops0 [eLine0, eLineB] [pyOfString "A"]).1 recA (by decide) (by decide)⟩

/-- C10: a missing (falsy/`None`) drawing yields an empty result set for
every layer selection, without raising. -/
theorem C10_none_drawing (ops : RealOps) (layers : List PyStr) :
    export_to_wkt ops none layers = [] := rfl

/-- C2: at the failing input `eLine0` the batch export emits the raw,
untransformed endpoints `(0,0)` and `(1,1)` as its LINESTRING; the
transforming converter in `utils.dxf_entity_to_wkt` (not called by the batch)
would emit the transformed endpoints, which differ whenever the
transformation moves the points — as the fixed RD-New to WGS84 map does. -/
theorem C2_export_line_untransformed :
    (export_to_wkt ops0 (some [eLine0]) []).map (fun r => r.wkt) =
      [Geom.linestring [(0, 0), (1, 1)]] ∧
    (∃ r, utilsConvert ops0 tr0 eLine0 = .ok r ∧
      r.wkt = some (.linestring [((1 : ℚ), (1 : ℚ)), (2, 2)])) ∧
    Geom.linestring [((0 : ℚ), (0 : ℚ)), (1, 1)] ≠
      Geom.linestring [tr0 (0, 0), tr0 (1, 1)] := by
  refine ⟨by decide, ⟨_, rfl, ?_⟩, ?_⟩
  · show some (Geom.linestring [tr0 (0, 0), tr0 (1, 1)]) =
      some (Geom.linestring [((1 : ℚ), (1 : ℚ)), (2, 2)])
    norm_num [tr0]
  · intro hcon
    norm_num [tr0] at hcon

/-- C5 counterexample: in a concrete batch of two entities the number of
coordinate-transformer constructions performed by the batch export is 0, not
the single shared construction the claim asserts (the batch's converter never
constructs one). -/
theorem C5_counterexample :
    (exportInstr ops0 (some [eLine0, eLineB]) [] 0).2 = 0 ∧ (0 : Nat) ≠ 1 :=
  ⟨by decide, by decide⟩

/-- C5 (amended): the transformer is not shared across a batch:
`utils.dxf_entity_to_wkt` constructs a fresh transformer on every call (the
construction count grows by one per conversion), while the batch export —
which uses the module-local untransformed converter — constructs none at all. -/
theorem C5_transformer_per_call :
    (∀ ops tr e n, (utilsConvertInstr ops tr e n).2 = n + 1) ∧
    (∀ ops doc layers n, (exportInstr ops doc layers n).2 = n) := by
  constructor
  · intro ops tr e n
    rfl
  · intro ops doc layers n
    cases doc with
    | none => rfl
    | some es =>
        show (es.foldl _ ([], n)).2 = n
        suffices h : ∀ acc : List EntityRecord × Nat,
            (es.foldl (fun acc e =>
              if layerPass layers e then
                let res := streamlitConvertInstr ops e acc.2
                match res.1 with
                | .error _ => (acc.1, res.2)
                | .ok r =>
                  match r.wkt with
                  | none => (acc.1, res.2)
                  | some w =>
                    (acc.1 ++ [⟨generate_uri r httpBase, r.layer, r.entity_type, w, r.color,
                       r.extra_data⟩], res.2)
              else acc) acc).2 = acc.2 by
          exact h ([], n)
        induction es with
        | nil => intro acc; rfl
        | cons e es ih =>
            intro acc
            rw [List.foldl_cons, ih]
            by_cases hp : layerPass layers e = true
            · rw [if_pos hp]
              cases hs : streamlitConvert ops e with
              | error u => simp [streamlitConvertInstr, hs]
              | ok r =>
                  cases hw : r.wkt with
                  | none => simp [streamlitConvertInstr, hs, hw]
                  | some w => simp [streamlitConvertInstr, hs, hw]
            · rw [if_neg hp]
